import Mathlib

/-!
Verification of the compression MCP client (`compression_mcp_client.py`).

The Python module is embedded shallowly:

* Python strings are modelled as `List Char`; `len` is `List.length`,
  slicing `[:n]` is `List.take n`, and the string methods the module uses
  (`split('. ')`, `'. '.join`, `split()` with no argument, `lower()`,
  substring membership `in`) are given as structurally recursive Lean
  functions below, so every definition evaluates inside the kernel.
* Python floats are modelled as exact rationals (`ℚ`).  The module only
  multiplies lengths by the literals `1.3` and `0.5`, divides two
  nonnegative integers, and returns the literal `0.1`; none of the claims
  hinges on binary floating-point rounding, so the exact rationals
  `13/10`, `1/2`, `1/10` are a faithful abstraction.  `int()` on a
  nonnegative value is `intTrunc`.
* A Python `dict` message is modelled as a structure whose `content`
  field is an `Option (List Char)`: `none` models a message lacking the
  `'content'` key, `msg.get('content', '')` is `Option.getD · []`, and a
  bare `msg['content']` on a missing key (a `KeyError`) is modelled by
  propagating `none` through the enclosing operation.
* Operations that can raise at runtime return `Option`: `compress_text`
  divides by `len(text)` and so raises `ZeroDivisionError` on empty
  input, modelled as `none`.
* The `timestamp` result fields (wall-clock strings) are omitted from
  the result records; no claim mentions them except to exclude them.
* Only the `mock_mode = True` path of each operation is modelled: the
  client starts in mock mode and nothing in the module ever clears the
  flag, so the `else` branches (stubs returning `None`) are dead code.
-/

/-- Python `c.isspace()` on the whitespace characters relevant to
`str.split()` with no argument (space, tab, newline, carriage return). -/
def isWS (c : Char) : Bool :=
  c == ' ' || c == '\t' || c == '\n' || c == '\r'

/-- Helper for `wordCount`: the flag records whether the scan is currently
inside a word, so each maximal run of non-whitespace is counted once. -/
def wordCountAux : Bool → List Char → Nat
  | _, [] => 0
  | inWord, c :: cs =>
    if isWS c then wordCountAux false cs
    else (if inWord then 0 else 1) + wordCountAux true cs

/-- Python `len(s.split())`: the number of maximal whitespace-separated
words of `s` (empty and all-blank strings have zero words). -/
def wordCount (s : List Char) : Nat :=
  wordCountAux false s

/-- Python `s.split('. ')`: split at each leftmost, non-overlapping
occurrence of the two-character separator `". "`.  Like Python, the
result is never empty and splitting the empty string gives `[[]]`. -/
def splitDotSpace : List Char → List (List Char)
  | [] => [[]]
  | '.' :: ' ' :: rest => [] :: splitDotSpace rest
  | c :: rest =>
    match splitDotSpace rest with
    | [] => [[c]]
    | p :: ps => (c :: p) :: ps

/-- Python `'. '.join(pieces)`. -/
def joinDotSpace : List (List Char) → List Char
  | [] => []
  | [p] => p
  | p :: ps => p ++ '.' :: ' ' :: joinDotSpace ps

/-- Python `pat in s` for a nonempty pattern: `pat` occurs as a
contiguous substring of `s`. -/
def containsSub (pat : List Char) : List Char → Bool
  | [] => pat.isEmpty
  | c :: cs => pat.isPrefixOf (c :: cs) || containsSub pat cs

/-- Python `s.lower()` (ASCII case folding, which covers every string
the module compares against its all-ASCII keyword lexicon). -/
def lowerStr (s : List Char) : List Char :=
  s.map Char.toLower

/-- Python `int(q)` for a nonnegative rational: truncation toward zero,
which on nonnegative values is the floor `q.num.toNat / q.den`. -/
def intTrunc (q : ℚ) : Nat :=
  q.num.toNat / q.den

/-- A conversation message (Python `dict`).  Only the `'content'` key is
ever read by the module; `content = none` models a dict lacking it. -/
structure Message where
  content : Option (List Char)
deriving DecidableEq

/-- Result record of `compress_text` (the `timestamp` field is omitted). -/
structure CompressResult where
  compressed_text : List Char
  original_length : Nat
  compressed_length : Nat
  compression_ratio : ℚ
deriving DecidableEq

/-- `CompressionMCPClient.compress_text` (mock path, lines 43-58).
`sentences = text.split('. ')`, the first `max(1, len(sentences)//2)`
sentences are rejoined with `'. '` and a final `'.'` is appended, and the
ratio is `len(compressed)/len(text)` - which raises `ZeroDivisionError`
(here `none`) when `text` is empty.  The `ratio` argument is accepted but
never used on this path (`target_words` is computed and then dead). -/
def compress_text (text : List Char) (ratio : ℚ) : Option CompressResult :=
  let sentences := splitDotSpace text
  let compressed :=
    joinDotSpace (sentences.take (max 1 (sentences.length / 2))) ++ ['.']
  if text.length = 0 then none
  else some
    { compressed_text := compressed
      original_length := text.length
      compressed_length := compressed.length
      compression_ratio := (compressed.length : ℚ) / (text.length : ℚ) }

/-- One entry of the `suggestions` list built by
`get_compression_suggestions` (lines 84-88). -/
structure Suggestion where
  message_index : Nat
  reason : List Char
  potential_savings : ℚ
deriving DecidableEq

/-- Result record of `get_compression_suggestions` (the `timestamp`
field is omitted). -/
structure SuggestionsResult where
  total_tokens : Nat
  suggestions : List Suggestion
  estimated_savings : ℚ
deriving DecidableEq

/-- The dict built on lines 84-88: `msg['content']` is a bare key lookup,
so a message with no `'content'` key would raise `KeyError` here
(modelled as `none`). -/
def mkSuggestion (i : Nat) (m : Message) : Option Suggestion :=
  match m.content with
  | none => none
  | some c => some ⟨i, "Long message".data, (c.length : ℚ) * (1 / 2)⟩

/-- The loop of lines 81-88 over the already-enumerated message list:
a message is appended as a suggestion iff `len(msg.get('content', '')) > 500`. -/
def collectSuggestions : List (Nat × Message) → Option (List Suggestion)
  | [] => some []
  | (i, m) :: rest =>
    if (m.content.getD []).length > 500 then
      match mkSuggestion i m with
      | none => none
      | some s => (collectSuggestions rest).map (fun ss => s :: ss)
    else collectSuggestions rest

/-- Line 79: `total_tokens = sum(len(msg.get('content', '').split()) * 1.3
for msg in conversation)`, summed over ALL messages, then `int(...)` on
line 91. -/
def conversationTotalTokens (conversation : List Message) : Nat :=
  intTrunc ((conversation.map
    (fun m => (wordCount (m.content.getD []) : ℚ) * (13 / 10))).sum)

/-- `CompressionMCPClient.get_compression_suggestions` (mock path, lines
77-95).  `conversation[:-10]` keeps the first `len - 10` messages (all
messages are protected when there are at most 10), `enumerate` pairs each
with its index, and `estimated_savings` sums the `potential_savings`
fields.  The `threshold` argument is accepted but never used on this
path. -/
def get_compression_suggestions (conversation : List Message) (threshold : ℚ) :
    Option SuggestionsResult :=
  (collectSuggestions ((conversation.take (conversation.length - 10)).enum)).map
    (fun ss =>
      { total_tokens := conversationTotalTokens conversation
        suggestions := ss
        estimated_savings := (ss.map (fun s => s.potential_savings)).sum })

/-- Line 124: `'decision' in content.lower() or 'decided' in content.lower()`. -/
def isDecisionMsg (c : List Char) : Bool :=
  containsSub "decision".data (lowerStr c) || containsSub "decided".data (lowerStr c)

/-- Line 126: `any(word in content.lower() for word in
['implement', 'build', 'create'])`. -/
def isKeyPointMsg (c : List Char) : Bool :=
  ["implement".data, "build".data, "create".data].any
    (fun w => containsSub w (lowerStr c))

/-- Lines 125/127: each extracted snippet is `content[:100] + '...'`. -/
def snippet (c : List Char) : List Char :=
  c.take 100 ++ "...".data

/-- Result record of `compress_conversation` (the `timestamp` field is
omitted). -/
structure ConversationSummary where
  summary : List Char
  key_points : List (List Char)
  decisions : List (List Char)
  message_count : Nat
  compression_ratio : ℚ
deriving DecidableEq

/-- `CompressionMCPClient.compress_conversation` (mock path, lines
115-138).  The loop of lines 121-127 appends a snippet to `decisions`
and/or `key_points` for each qualifying message in order, which equals
filtering the contents and mapping `snippet`; lines 131-132 then keep
the first 5 and first 3.  `compression_ratio` is the literal `0.1` and
the `max_tokens` argument is accepted but never used on this path. -/
def compress_conversation (messages : List Message) (maxTokens : Nat) :
    ConversationSummary :=
  let contents := messages.map (fun m => m.content.getD [])
  { summary := "Conversation with ".data ++ (Nat.repr messages.length).data
      ++ " messages".data
    key_points := ((contents.filter isKeyPointMsg).map snippet).take 5
    decisions := ((contents.filter isDecisionMsg).map snippet).take 3
    message_count := messages.length
    compression_ratio := 1 / 10 }

/-- Modelled from the spec: the Token Estimator of section 4.1,
"whitespace-delimited word count scaled by an empirical factor ...
default factor 1.3", returning an integer token count.  Used only to
state the spec side of claim C4 against the code's hard-wired ratio. -/
def specEstimate (s : List Char) : Nat :=
  intTrunc ((wordCount s : ℚ) * (13 / 10))

/-- Modelled from the spec: section 4.4, the `achieved_ratio` of
`compress_conversation` is "computed as estimated summary size divided by
estimated original size using the Token Estimator consistently on both
sides".  The summary's size is the estimator summed over its text fields
(summary line, key points, decisions), the original's the estimator
summed over the messages' contents. -/
def specAchievedRatio (messages : List Message) (maxTokens : Nat) : ℚ :=
  let s := compress_conversation messages maxTokens
  let summaryTokens : Nat :=
    specEstimate s.summary + ((s.key_points ++ s.decisions).map specEstimate).sum
  let originalTokens : Nat :=
    (messages.map (fun m => specEstimate (m.content.getD []))).sum
  (summaryTokens : ℚ) / (originalTokens : ℚ)

/-- Modelled from the spec claim C7: a message outside the protected
window (the last 10 messages) "becomes a suggestion exactly when its
content length exceeds a size cutoff of 500 characters scaled by the
threshold parameter", i.e. when `500 * threshold < len(content)`. -/
def specSuggestedAt (conversation : List Message) (threshold : ℚ) (i : Nat) : Prop :=
  i + 10 < conversation.length ∧
  (500 : ℚ) * threshold < (((conversation.getD i ⟨none⟩).content.getD []).length : ℚ)

/-- Replace a missing `'content'` key by an explicitly empty content:
the normal form the spec's `MalformedInput` policy says a malformed
message must be treated as. -/
def normalizeMsg (m : Message) : Message :=
  ⟨some (m.content.getD [])⟩

/-- A single ten-word message containing none of the extraction
keywords; concrete input for the claim C4 counterexample. -/
def msgsC4 : List Message :=
  [⟨some "alpha beta gamma delta epsilon zeta eta theta iota kappa".data⟩]

/-- Eleven messages whose first has a 501-character content: exactly one
message is outside the protected window and it is over the 500-character
cutoff, so the mock client emits exactly one suggestion, for index 0. -/
def longMsgConv : List Message :=
  ⟨some (List.replicate 501 'a')⟩ :: List.replicate 10 ⟨some "hi".data⟩

/-- The result the mock client returns on `longMsgConv` (11 one-word
messages make `int(11 * 1.3) = 14` estimated tokens). -/
def longMsgRes : SuggestionsResult :=
  ⟨14, [⟨0, "Long message".data, 501 / 2⟩], 501 / 2⟩

/-- Eleven messages whose first has a 400-character content: over the
spec's scaled cutoff `500 * 0.5 = 250` but under the code's fixed 500,
so the spec predicts a suggestion and the code returns none.  Concrete
input for the claim C7 counterexample. -/
def convC7 : List Message :=
  ⟨some (List.replicate 400 'a')⟩ :: List.replicate 10 ⟨some "hi".data⟩

/-- Two-message conversation (entirely inside the protected window);
concrete input for the claim C8 witness. -/
def convC8 : List Message :=
  [⟨some "hello".data⟩, ⟨some "world".data⟩]

/-- Twelve messages: the first lacks the `'content'` key, the second has
a 501-character content.  Concrete input for the claim C9 witness: the
malformed message is skipped while the long one is still suggested. -/
def convC9 : List Message :=
  ⟨none⟩ :: ⟨some (List.replicate 501 'a')⟩ :: List.replicate 10 ⟨some "hi".data⟩

/-- The result the mock client returns on `convC9`: only index 1 is
suggested (index 0 has no content, indices 2-11 are protected). -/
def resC9 : SuggestionsResult :=
  ⟨conversationTotalTokens convC9, [⟨1, "Long message".data, 501 / 2⟩], 501 / 2⟩

set_option maxRecDepth 40000

theorem getD_normalizeMsg (m : Message) :
    (normalizeMsg m).content.getD [] = m.content.getD [] := by
  cases m with
  | mk c => cases c <;> rfl

theorem mkSuggestion_of_long (i : Nat) (m : Message)
    (h : 500 < (m.content.getD []).length) :
    mkSuggestion i m =
      some ⟨i, "Long message".data, ((m.content.getD []).length : ℚ) * (1 / 2)⟩ := by
  cases m with
  | mk c =>
    cases c with
    | none => simp at h
    | some c => rfl

theorem collectSuggestions_isSome (l : List (Nat × Message)) :
    (collectSuggestions l).isSome := by
  induction l with
  | nil => rfl
  | cons p rest ih =>
    obtain ⟨i, m⟩ := p
    simp only [collectSuggestions]
    by_cases hg : 500 < (m.content.getD []).length
    · rw [if_pos hg, mkSuggestion_of_long i m hg]
      simpa using ih
    · rw [if_neg hg]
      exact ih

theorem collectSuggestions_mem_iff (l : List (Nat × Message)) (ss : List Suggestion)
    (h : collectSuggestions l = some ss) (i : Nat) :
    (∃ s ∈ ss, s.message_index = i) ↔
      ∃ p ∈ l, p.1 = i ∧ 500 < (p.2.content.getD []).length := by
  induction l generalizing ss with
  | nil =>
    simp only [collectSuggestions, Option.some.injEq] at h
    subst h
    simp
  | cons p rest ih =>
    obtain ⟨j, m⟩ := p
    simp only [collectSuggestions] at h
    by_cases hg : 500 < (m.content.getD []).length
    · rw [if_pos hg, mkSuggestion_of_long j m hg, Option.map_eq_some'] at h
      obtain ⟨ss', hss', rfl⟩ := h
      rw [List.exists_mem_cons_iff, List.exists_mem_cons_iff, ih ss' hss']
      constructor
      · rintro (hj | hrest)
        · exact Or.inl ⟨hj, hg⟩
        · exact Or.inr hrest
      · rintro (⟨hj, _⟩ | hrest)
        · exact Or.inl hj
        · exact Or.inr hrest
    · rw [if_neg hg] at h
      rw [ih ss h, List.exists_mem_cons_iff]
      constructor
      · exact Or.inr
      · rintro (⟨_, hlong⟩ | hrest)
        · exact absurd hlong hg
        · exact hrest

theorem get_suggestions_inv (conv : List Message) (t : ℚ) (res : SuggestionsResult)
    (h : get_compression_suggestions conv t = some res) :
    ∃ ss, collectSuggestions ((conv.take (conv.length - 10)).enum) = some ss ∧
      res.suggestions = ss := by
  unfold get_compression_suggestions at h
  rw [Option.map_eq_some'] at h
  obtain ⟨ss, hss, rfl⟩ := h
  exact ⟨ss, hss, rfl⟩

theorem take_window_length (conv : List Message) :
    ((conv.take (conv.length - 10)).length) = conv.length - 10 := by
  rw [List.length_take]
  exact Nat.min_eq_left (Nat.sub_le _ _)

theorem get_suggestions_mem_characterization (conv : List Message) (t : ℚ)
    (res : SuggestionsResult) (h : get_compression_suggestions conv t = some res)
    (i : Nat) :
    (∃ s ∈ res.suggestions, s.message_index = i) ↔
      (i + 10 < conv.length ∧
        500 < ((conv.getD i ⟨none⟩).content.getD []).length) := by
  obtain ⟨ss, hss, hres⟩ := get_suggestions_inv conv t res h
  rw [hres, collectSuggestions_mem_iff _ ss hss i]
  constructor
  · rintro ⟨⟨j, m⟩, hmem, rfl, hlong⟩
    have hj : (conv.take (conv.length - 10))[j]? = some m :=
      List.mk_mem_enum_iff_getElem?.mp hmem
    have hjlt : j < conv.length - 10 := by
      have := (List.getElem?_eq_some_iff.mp hj).1
      rw [take_window_length] at this
      exact this
    have hconv : conv[j]? = some m := by
      rw [← List.getElem?_take_of_lt hjlt]
      exact hj
    refine ⟨by omega, ?_⟩
    rw [List.getD_eq_getElem?_getD, hconv]
    exact hlong
  · rintro ⟨hi, hlong⟩
    have hjlt : i < conv.length := by omega
    have hwin : i < conv.length - 10 := by omega
    refine ⟨(i, conv.getD i ⟨none⟩), ?_, rfl, hlong⟩
    rw [List.mk_mem_enum_iff_getElem?, List.getElem?_take_of_lt hwin,
      List.getD_eq_getElem?_getD, List.getElem?_eq_getElem hjlt]
    rfl

theorem map_content_normalize {α : Type} (f : List Char → α) (conv : List Message) :
    (conv.map normalizeMsg).map (fun m => f (m.content.getD [])) =
      conv.map (fun m => f (m.content.getD [])) := by
  induction conv with
  | nil => rfl
  | cons m rest ih => simp only [List.map_cons, ih, getD_normalizeMsg]

theorem conversationTotalTokens_normalize (conv : List Message) :
    conversationTotalTokens (conv.map normalizeMsg) = conversationTotalTokens conv := by
  unfold conversationTotalTokens
  rw [map_content_normalize (fun c => (wordCount c : ℚ) * (13 / 10)) conv]

theorem mkSuggestion_normalize_of_long (i : Nat) (m : Message)
    (h : 500 < (m.content.getD []).length) :
    mkSuggestion i (normalizeMsg m) = mkSuggestion i m := by
  rw [mkSuggestion_of_long i m h,
    mkSuggestion_of_long i (normalizeMsg m) (by rw [getD_normalizeMsg]; exact h),
    getD_normalizeMsg]

theorem collectSuggestions_normalize (l : List (Nat × Message)) :
    collectSuggestions (l.map (Prod.map id normalizeMsg)) = collectSuggestions l := by
  induction l with
  | nil => rfl
  | cons p rest ih =>
    obtain ⟨i, m⟩ := p
    by_cases hg : 500 < (m.content.getD []).length
    · simp only [List.map_cons, Prod.map, id, collectSuggestions, getD_normalizeMsg,
        if_pos hg, mkSuggestion_normalize_of_long i m hg, ih]
    · simp only [List.map_cons, Prod.map, id, collectSuggestions, getD_normalizeMsg,
        if_neg hg, ih]

theorem enum_map_normalize (l : List Message) :
    (l.map normalizeMsg).enum = l.enum.map (Prod.map id normalizeMsg) :=
  List.enumFrom_map 0 l normalizeMsg

theorem get_suggestions_normalize (conv : List Message) (t : ℚ) :
    get_compression_suggestions (conv.map normalizeMsg) t =
      get_compression_suggestions conv t := by
  unfold get_compression_suggestions
  rw [List.length_map, ← List.map_take, enum_map_normalize,
    collectSuggestions_normalize, conversationTotalTokens_normalize]

theorem contents_cons_none (conv : List Message) :
    ((⟨none⟩ : Message) :: conv).map (fun m => m.content.getD []) =
      [] :: conv.map (fun m => m.content.getD []) := rfl

/-- C1 (counterexample): the claimed bound `achieved_ratio <= 1` fails on
the one-character text `"a"`: the mock compressor appends a terminating
`'.'`, returning `"a."` with `compression_ratio = 2/1 = 2 > 1`. -/
theorem c1_counterexample :
    compress_text "a".data (1 / 2) = some ⟨"a.".data, 1, 2, 2⟩ ∧ ¬((2 : ℚ) ≤ 1) :=
  ⟨by with_unfolding_all decide, by norm_num⟩

/-- C1 (amended): for every non-empty text and every ratio in (0,1] - in
fact for every ratio, since the mock path ignores it - `compress_text`
returns a result whose `achieved_ratio` is strictly positive; the upper
bound 1 does not hold in general because a terminator is appended. -/
theorem c1_ratio_positive_amended (text : List Char) (ratio : ℚ) (h : text ≠ []) :
    ∃ res, compress_text text ratio = some res ∧ 0 < res.compression_ratio := by
  have hlen : text.length ≠ 0 := fun h0 => h (List.length_eq_zero.mp h0)
  simp only [compress_text]
  rw [if_neg hlen]
  refine ⟨_, rfl, ?_⟩
  have h1 : 0 < (joinDotSpace ((splitDotSpace text).take
      (max 1 ((splitDotSpace text).length / 2))) ++ ['.']).length := by
    rw [List.length_append]
    simp
  exact div_pos (by exact_mod_cast h1) (by exact_mod_cast Nat.pos_of_ne_zero hlen)

/-- C1 (witness): `c1_ratio_positive_amended` applied to the concrete
non-empty text `"ab. cd"`. -/
theorem c1_witness :
    ∃ res, compress_text "ab. cd".data (1 / 2) = some res ∧
      0 < res.compression_ratio :=
  c1_ratio_positive_amended "ab. cd".data (1 / 2) (by decide)

/-- C2 (counterexample): `compress_text` with the out-of-range ratio 1.5
does NOT raise and DOES produce a result: on `"hello. world"` it returns
the same record as for any valid ratio (a raised error is modelled as
`none`, and the result here is `some`). -/
theorem c2_counterexample :
    compress_text "hello. world".data (3 / 2) =
      some ⟨"hello.".data, 12, 6, 1 / 2⟩ := by
  with_unfolding_all decide

/-- C2 (amended): `compress_text` performs no ratio validation at all:
a ratio outside (0,1] such as 1.5 is accepted silently and yields
exactly the same result as an in-range ratio, because the mock path
never reads `ratio`. -/
theorem c2_no_validation_amended (text : List Char) :
    compress_text text (3 / 2) = compress_text text (1 / 2) := rfl

/-- C3 (code bug): on the empty string the code computes
`len(compressed) / len(text)` with `len(text) = 0` and so raises
`ZeroDivisionError` (modelled as `none`) instead of returning the
defined result with `achieved_ratio = 1.0` that the spec requires. -/
theorem c3_empty_input_crash : compress_text [] (1 / 2) = none := rfl

/-- C4 (counterexample): on a one-message, ten-word conversation with no
extraction keywords, the code returns the constant `compression_ratio =
0.1`, while the ratio of Token-Estimator sizes (summary side over
original side, per the spec) is `5/13`; the two differ. -/
theorem c4_counterexample :
    (compress_conversation msgsC4 1000).compression_ratio = 1 / 10 ∧
    specAchievedRatio msgsC4 1000 = 5 / 13 ∧
    ((1 : ℚ) / 10) ≠ (5 / 13 : ℚ) :=
  ⟨rfl, by with_unfolding_all decide, by norm_num⟩

/-- C4 (amended): for every message list and every `max_tokens`,
`compress_conversation` returns the hard-wired constant
`compression_ratio = 0.1`; the ratio is not computed from the Token
Estimator at all. -/
theorem c4_constant_ratio_amended (messages : List Message) (maxTokens : Nat) :
    (compress_conversation messages maxTokens).compression_ratio = 1 / 10 := rfl

/-- C5: no suggestion ever points into the protected recent window: every
returned `message_index` satisfies `index + 10 < length`, i.e. it is not
among the last 10 messages of the conversation. -/
theorem c5_protected_window (conv : List Message) (t : ℚ) (res : SuggestionsResult)
    (h : get_compression_suggestions conv t = some res) :
    ∀ s ∈ res.suggestions, s.message_index + 10 < conv.length := by
  intro s hs
  exact ((get_suggestions_mem_characterization conv t res h s.message_index).mp
    ⟨s, hs, rfl⟩).1

/-- C5 (witness): `c5_protected_window` applied to the eleven-message
conversation `longMsgConv`, whose single suggestion has index 0. -/
theorem c5_witness :
    (⟨0, "Long message".data, 501 / 2⟩ : Suggestion).message_index + 10 <
      longMsgConv.length :=
  c5_protected_window longMsgConv (7 / 10) longMsgRes
    (by with_unfolding_all decide)
    ⟨0, "Long message".data, 501 / 2⟩ (by with_unfolding_all decide)

/-- C6: for every message list and every `max_tokens`, the summary keeps
at most 5 key points and at most 3 decisions. -/
theorem c6_caps (messages : List Message) (maxTokens : Nat) :
    (compress_conversation messages maxTokens).key_points.length ≤ 5 ∧
    (compress_conversation messages maxTokens).decisions.length ≤ 3 := by
  refine ⟨?_, ?_⟩ <;>
  · show (List.take _ _).length ≤ _
    rw [List.length_take]
    exact min_le_left _ _

/-- C7 (counterexample): with `threshold = 0.5` the spec's scaled cutoff
is `500 * 0.5 = 250`, so the 400-character message at index 0 of
`convC7` (11 messages) should become a suggestion - but the code, whose
cutoff is a fixed 500 characters, returns no suggestion at all. -/
theorem c7_counterexample :
    specSuggestedAt convC7 (1 / 2) 0 ∧
    get_compression_suggestions convC7 (1 / 2) =
      some ⟨conversationTotalTokens convC7, [], 0⟩ := by
  constructor
  · unfold specSuggestedAt
    with_unfolding_all decide
  · with_unfolding_all decide

/-- C7 (amended): the `threshold` parameter is ignored entirely (any two
thresholds give identical results, so a higher threshold yields exactly
as many suggestions), and a message outside the protected window becomes
a suggestion exactly when its content length exceeds the FIXED cutoff of
500 characters, unscaled by `threshold`. -/
theorem c7_fixed_cutoff_amended :
    (∀ (conv : List Message) (t₁ t₂ : ℚ),
      get_compression_suggestions conv t₁ = get_compression_suggestions conv t₂) ∧
    (∀ (conv : List Message) (t : ℚ) (res : SuggestionsResult),
      get_compression_suggestions conv t = some res → ∀ i : Nat,
      ((∃ s ∈ res.suggestions, s.message_index = i) ↔
        (i + 10 < conv.length ∧
          500 < ((conv.getD i ⟨none⟩).content.getD []).length))) :=
  ⟨fun _ _ _ => rfl,
   fun conv t res h i => get_suggestions_mem_characterization conv t res h i⟩

/-- C7 (witness): both parts of `c7_fixed_cutoff_amended` at concrete
inputs: two different thresholds give the same result on `longMsgConv`,
and its index-0 message (501 characters, outside the window) is
suggested. -/
theorem c7_witness :
    (get_compression_suggestions longMsgConv (1 / 4) =
      get_compression_suggestions longMsgConv (9 / 10)) ∧
    (∃ s ∈ longMsgRes.suggestions, s.message_index = 0) :=
  ⟨c7_fixed_cutoff_amended.1 longMsgConv (1 / 4) (9 / 10),
   (c7_fixed_cutoff_amended.2 longMsgConv (7 / 10) longMsgRes
      (by with_unfolding_all decide) 0).mpr ⟨by decide, by decide⟩⟩

/-- C8: a conversation of at most 10 messages yields no suggestions and
zero estimated savings, while `total_tokens` is still the Token-Estimator
sum (`int(sum(len(content.split()) * 1.3))`) over ALL messages. -/
theorem c8_small_conversation (conversation : List Message) (t : ℚ)
    (h : conversation.length ≤ 10) :
    get_compression_suggestions conversation t =
      some ⟨conversationTotalTokens conversation, [], 0⟩ := by
  have h0 : conversation.length - 10 = 0 := Nat.sub_eq_zero_of_le h
  unfold get_compression_suggestions
  rw [h0, List.take_zero]
  rfl

/-- C8 (witness): `c8_small_conversation` on the concrete two-message
conversation `convC8`. -/
theorem c8_witness :
    get_compression_suggestions convC8 (7 / 10) =
      some ⟨conversationTotalTokens convC8, [], 0⟩ :=
  c8_small_conversation convC8 (7 / 10) (by decide)

theorem contents_normalize (conv : List Message) :
    (conv.map normalizeMsg).map (fun m => m.content.getD []) =
      conv.map (fun m => m.content.getD []) :=
  map_content_normalize (fun c => c) conv

theorem filter_contents_cons_none (p : List Char → Bool) (hp : p [] = false)
    (conv : List Message) :
    ((((⟨none⟩ : Message) :: conv).map (fun m => m.content.getD [])).filter p) =
      ((conv.map (fun m => m.content.getD [])).filter p) := by
  rw [List.map_cons]
  show ([] :: conv.map (fun m => m.content.getD [])).filter p = _
  rw [List.filter_cons, hp]
  simp

/-- C9: operations are robust to messages lacking the `'content'` field:
`get_compression_suggestions` always returns a result (never raises,
because the `KeyError`-prone lookup is guarded by the 500-character
test, which empty content cannot pass); replacing every missing content
by the empty string changes nothing (the message is "treated as having
empty content"); a contentless message contributes 0 tokens to the
total, is never the target of a suggestion, and contributes no key-point
or decision snippet to the summary. -/
theorem c9_missing_content_robust (conv : List Message) (t : ℚ) (mt : Nat) :
    (get_compression_suggestions conv t).isSome = true ∧
    get_compression_suggestions (conv.map normalizeMsg) t =
      get_compression_suggestions conv t ∧
    compress_conversation (conv.map normalizeMsg) mt =
      compress_conversation conv mt ∧
    conversationTotalTokens (⟨none⟩ :: conv) = conversationTotalTokens conv ∧
    (∀ res, get_compression_suggestions conv t = some res →
      ∀ s ∈ res.suggestions, (conv.getD s.message_index ⟨none⟩).content ≠ none) ∧
    (compress_conversation (⟨none⟩ :: conv) mt).key_points =
      (compress_conversation conv mt).key_points ∧
    (compress_conversation (⟨none⟩ :: conv) mt).decisions =
      (compress_conversation conv mt).decisions := by
  refine ⟨?_, get_suggestions_normalize conv t, ?_, ?_, ?_, ?_, ?_⟩
  · unfold get_compression_suggestions
    rw [Option.isSome_map']
    exact collectSuggestions_isSome _
  · simp only [compress_conversation]
    rw [contents_normalize, List.length_map]
  · unfold conversationTotalTokens
    have h0 : wordCount ((⟨none⟩ : Message).content.getD []) = 0 := rfl
    simp only [List.map_cons, List.sum_cons, h0, Nat.cast_zero, zero_mul, zero_add]
  · intro res hres s hs
    have hch := (get_suggestions_mem_characterization conv t res hres
      s.message_index).mp ⟨s, hs, rfl⟩
    intro hnone
    rw [hnone] at hch
    simp at hch
  · show ((((((⟨none⟩ : Message) :: conv).map (fun m => m.content.getD [])).filter
        isKeyPointMsg).map snippet).take 5) = _
    rw [filter_contents_cons_none isKeyPointMsg rfl conv]
    rfl
  · show ((((((⟨none⟩ : Message) :: conv).map (fun m => m.content.getD [])).filter
        isDecisionMsg).map snippet).take 3) = _
    rw [filter_contents_cons_none isDecisionMsg rfl conv]
    rfl

/-- C9 (witness): on `convC9` (first message lacks `'content'`, second is
501 characters long) the suggested index 1 indeed has a present content
field; the hypotheses of `c9_missing_content_robust` are discharged at
this concrete input. -/
theorem c9_witness : (convC9.getD 1 ⟨none⟩).content ≠ none :=
  (c9_missing_content_robust convC9 (7 / 10) 5).2.2.2.2.1 resC9
    (by with_unfolding_all decide) ⟨1, "Long message".data, 501 / 2⟩
    (by with_unfolding_all decide)

/-- C10: the mock `compress_text` is independent of the requested ratio -
two calls with any two ratios return identical records (`compressed_text`,
`original_length`, `compressed_length`, `compression_ratio`; the model
omits the timestamp, the only field that can differ) - and whenever a
result is returned its `compressed_text` is exactly the first
`max(1, n // 2)` of the `n` sentence units rejoined and terminated. -/
theorem c10_ratio_independent :
    (∀ (text : List Char) (r₁ r₂ : ℚ),
      compress_text text r₁ = compress_text text r₂) ∧
    (∀ (text : List Char) (r : ℚ),
      (compress_text text r).map (fun res => res.compressed_text) =
        if text.length = 0 then none
        else some (joinDotSpace ((splitDotSpace text).take
          (max 1 ((splitDotSpace text).length / 2))) ++ ['.'])) := by
  constructor
  · intro text r₁ r₂
    rfl
  · intro text r
    simp only [compress_text]
    by_cases h : text.length = 0
    · rw [if_pos h, if_pos h]
      rfl
    · rw [if_neg h, if_neg h]
      rfl
